import Mathlib

/-!
Shallow embedding of the knowledger repository's metadata-extraction and
tag-reconciliation core (src/core.py, src/web_ui.py, src/database.py,
src/llm_service.py), together with theorems settling the frozen claims.

Modelling conventions:
* SQLAlchemy tables become lists of row structures; the autoincrement
  primary-key supply is a single fresh-id counter `next_id` (ids stay
  unique, which is all any claim depends on).
* Category, Entity and Date rows share one row type `TagRow`; only Entity
  rows ever use the `linked_to_id` alias pointer (database.py gives the
  column to entities only), and rows created by paths that never set a
  tenant carry `user_id = none` (SQL NULL).
* The external model call of llm_service.extract_metadata_with_ai returns
  `Option Metadata`: `none` is any transport/parse failure (the Python
  function returns None on every exception).
* `random.choice(xs)` is modelled by an arbitrary seed: the element at
  index `seed % xs.length`; every element is reachable by some seed and
  no other element is, which captures the nondeterminism exactly.
* The UNIQUE constraints that database.py declares on categories.name,
  entities.name and dates.date are global (not per tenant); the migration
  script scripts/migrate_to_multitenancy.py adds user_id columns but never
  drops them.  They are enforced at commit: an operation whose freshly
  inserted rows collide with an existing value (or with each other) rolls
  back, which is the IntegrityError/except/rollback path of the source.
* Python's `for x in xs:` over a list that the loop body itself shrinks
  (web_ui.merge_entity, where removing the ibit→source association also
  removes the ibit from the iterated backref collection) is embedded with
  the real index-based semantics of the CPython list iterator.
-/

/-- Python whitespace as stripped by `str.strip()` (ASCII subset; all values
the pipeline handles are ASCII). -/
def pySpace (c : Char) : Bool :=
  c == ' ' || c == '\t' || c == '\n' || c == '\r' || c == '\x0b' || c == '\x0c'

/-- Python `s.strip()`. -/
def pyStrip (s : String) : String :=
  ⟨((s.data.dropWhile pySpace).reverse.dropWhile pySpace).reverse⟩

def pyLowerChar (c : Char) : Char :=
  if 'A' ≤ c && c ≤ 'Z' then Char.ofNat (c.toNat + 32) else c

/-- Python `s.lower()` (ASCII subset). -/
def pyLower (s : String) : String := ⟨s.data.map pyLowerChar⟩

def pySplitCommaAux : List Char → List Char → List String
  | [], acc => [⟨acc.reverse⟩]
  | x :: xs, acc =>
    if x == ',' then ⟨acc.reverse⟩ :: pySplitCommaAux xs []
    else pySplitCommaAux xs (x :: acc)

/-- Python `s.split(",")` (note: `"".split(",") == [""]`). -/
def pySplitComma (s : String) : List String := pySplitCommaAux s.data []

def pyDigit? (c : Char) : Option Nat :=
  if '0' ≤ c && c ≤ '9' then some (c.toNat - '0'.toNat) else none

def pyIntAux : List Char → Nat → Option Nat
  | [], n => some n
  | c :: cs, n =>
    match pyDigit? c with
    | some d => pyIntAux cs (n * 10 + d)
    | none => none

/-- Python `int(s)` for the id arguments of the bot commands, modelled as
decimal Nat parsing (ids are positive; a parse failure takes the
ValueError/usage path of the source). -/
def pyInt (s : String) : Option Nat :=
  if s.data.isEmpty then none else pyIntAux s.data 0

structure TagRow where
  id : Nat
  value : String
  user_id : Option Nat
  linked_to_id : Option Nat
deriving DecidableEq, Repr

structure IbitRow where
  id : Nat
  text : String
  source : Option String
  date_added : Nat
  user_id : Nat
deriving DecidableEq, Repr

structure QuizProgressRow where
  user_id : Nat
  used_ibit_ids : List Nat
deriving DecidableEq, Repr

structure DB where
  ibits : List IbitRow
  categories : List TagRow
  entities : List TagRow
  dates : List TagRow
  ibit_categories : List (Nat × Nat)
  ibit_entities : List (Nat × Nat)
  ibit_dates : List (Nat × Nat)
  quiz_progress : List QuizProgressRow
  next_id : Nat
deriving DecidableEq, Repr

/-- Metadata as returned by llm_service.extract_metadata_with_ai. -/
structure Metadata where
  categories : List String
  entities : List String
  dates : List String
  source : Option String
deriving DecidableEq, Repr

def emptyMetadata : Metadata := ⟨[], [], [], none⟩

/-- Normalization applied to category candidates: `tag.strip().lower()`
(core.py line 90, web_ui.py line 312). -/
def normCategory (s : String) : String := pyLower (pyStrip s)

/-- Normalization applied to entity candidates: `entity_name.strip()`
(core.py line 101, web_ui.py line 323). -/
def normEntity (s : String) : String := pyStrip s

/-- Normalization applied to date candidates: `date_str.strip()`
(core.py line 112, web_ui.py line 334). -/
def normDate (s : String) : String := pyStrip s

/-- The tenant-scoped lookup `session.query(T).filter(T.user_id == user_id,
T.value == v).first()` shared by all find-or-create sites of core.py and by
the category/entity sites of web_ui.edit_ibit. -/
def findTag (rows : List TagRow) (user_id : Nat) (v : String) : Option TagRow :=
  rows.find? (fun r => r.user_id == some user_id && r.value == v)

/-- Find-or-create for one tenant-scoped vocabulary value (core.py lines
92-96, 103-107, 114-117; web_ui.py lines 314-317, 325-328): look the value
up for the tenant, and if absent add a fresh row (session.add). -/
def resolveOrCreate (rows : List TagRow) (nid user_id : Nat) (v : String) :
    TagRow × List TagRow × Nat :=
  match findTag rows user_id v with
  | some r => (r, rows, nid)
  | none =>
      let r : TagRow := ⟨nid, v, some user_id, none⟩
      (r, rows ++ [r], nid + 1)

/-- The date find-or-create of web_ui.edit_ibit lines 336-339:
`session.query(Date).filter_by(date=date_str).first()` carries no tenant
filter, and the created row sets no user_id. -/
def resolveOrCreateGlobalDate (rows : List TagRow) (nid : Nat) (v : String) :
    TagRow × List TagRow × Nat :=
  match rows.find? (fun r => r.value == v) with
  | some r => (r, rows, nid)
  | none =>
      let r : TagRow := ⟨nid, v, none, none⟩
      (r, rows ++ [r], nid + 1)

/-- The candidate loop shared by the three tag kinds of core.add_ibit
(lines 88-118) and the category/entity loops of web_ui.edit_ibit: for each
candidate, normalize, skip if empty, find-or-create for the tenant, and
append the ibit↔tag association. -/
def addTagLoop (norm : String → String) (user_id ibit_id : Nat) :
    List String → List TagRow → Nat → List (Nat × Nat) →
    List TagRow × Nat × List (Nat × Nat)
  | [], rows, nid, assoc => (rows, nid, assoc)
  | tag :: rest, rows, nid, assoc =>
    let t := norm tag
    if t = "" then addTagLoop norm user_id ibit_id rest rows nid assoc
    else
      let res := resolveOrCreate rows nid user_id t
      addTagLoop norm user_id ibit_id rest res.2.1 res.2.2 (assoc ++ [(ibit_id, res.1.id)])

/-- The date loop of web_ui.edit_ibit lines 332-340, which resolves dates
with no tenant scoping. -/
def webDateLoop (ibit_id : Nat) :
    List String → List TagRow → Nat → List (Nat × Nat) →
    List TagRow × Nat × List (Nat × Nat)
  | [], rows, nid, assoc => (rows, nid, assoc)
  | date_str :: rest, rows, nid, assoc =>
    let t := pyStrip date_str
    if t = "" then webDateLoop ibit_id rest rows nid assoc
    else
      let res := resolveOrCreateGlobalDate rows nid t
      webDateLoop ibit_id rest res.2.1 res.2.2 (assoc ++ [(ibit_id, res.1.id)])

/-- One freshly inserted value is admissible for a UNIQUE column when it
collides neither with the committed values nor with its fellow inserts. -/
def allFresh (oldVals : List String) : List String → Bool
  | [] => true
  | v :: vs => !(oldVals.contains v) && !(vs.contains v) && allFresh oldVals vs

/-- Commit-time check of the UNIQUE constraints of database.py lines 38,
45, 54 (global uniqueness of categories.name, entities.name, dates.date):
the rows appended past the committed prefix must be fresh. -/
def insertOK (oldRows newRows : List TagRow) : Bool :=
  allFresh (oldRows.map (·.value)) ((newRows.drop oldRows.length).map (·.value))

/-- Replace the first element satisfying `p` (SQLAlchemy: mutate the row
object returned by `.first()`). -/
def updateFirst (p : α → Bool) (f : α → α) : List α → List α
  | [] => []
  | x :: xs => if p x then f x :: xs else x :: updateFirst p f xs

/-- Drop every association of one ibit (`ibit.categories.clear()` etc.,
web_ui.py lines 305-307). -/
def clearIbit (assoc : List (Nat × Nat)) (ibit_id : Nat) : List (Nat × Nat) :=
  assoc.filter (fun p => !(p.1 == ibit_id))

namespace Core

inductive AddIbitResult
  | stored (msg : String)
  | failed
deriving DecidableEq, Repr

/-- Confirmation summary of core.add_ibit lines 123-133 (lines for empty
lists are omitted; a falsy source is omitted). -/
def responseMsg (metadata : Metadata) : String :=
  let parts := ["✅ Ibit stored!"]
    ++ (if metadata.categories.isEmpty then []
        else ["📁 Categories: " ++ String.intercalate ", " metadata.categories])
    ++ (if metadata.entities.isEmpty then []
        else ["🏷️ Entities: " ++ String.intercalate ", " metadata.entities])
    ++ (if metadata.dates.isEmpty then []
        else ["📅 Dates: " ++ String.intercalate ", " metadata.dates])
    ++ (match metadata.source with
        | some s => if s = "" then [] else ["📖 Source: " ++ s]
        | none => [])
  String.intercalate "\n" parts

/-- core.add_ibit (core.py lines 70-143).  `metadata?` is the outcome of
extract_metadata_with_ai (`none` on extraction failure, replaced by empty
metadata per lines 79-82); `now` is the creation timestamp default.  A
commit-time uniqueness violation takes the except/rollback path of lines
136-139 and leaves the store untouched. -/
def add_ibit (db : DB) (ibit_text : String) (user_id now : Nat)
    (metadata? : Option Metadata) : DB × AddIbitResult :=
  let metadata := metadata?.getD emptyMetadata
  let source := match metadata.source with
    | some s => if s = "" then none else some s
    | none => none
  let ibit_id := db.next_id
  let c := addTagLoop normCategory user_id ibit_id metadata.categories
            db.categories (db.next_id + 1) db.ibit_categories
  let e := addTagLoop normEntity user_id ibit_id metadata.entities
            db.entities c.2.1 db.ibit_entities
  let d := addTagLoop normDate user_id ibit_id metadata.dates
            db.dates e.2.1 db.ibit_dates
  let new_ibit : IbitRow := ⟨ibit_id, ibit_text, source, now, user_id⟩
  if insertOK db.categories c.1 && insertOK db.entities e.1 && insertOK db.dates d.1 then
    ({ db with
        ibits := db.ibits ++ [new_ibit]
        categories := c.1
        entities := e.1
        dates := d.1
        ibit_categories := c.2.2
        ibit_entities := e.2.2
        ibit_dates := d.2.2
        next_id := d.2.1 },
     .stored (responseMsg metadata))
  else (db, .failed)

inductive AddCatResult
  | usage
  | notFound
  | added (msg : String)
  | failed
deriving DecidableEq, Repr

/-- The category loop of core.add_categories lines 200-208: the raw
command argument is used with no trimming and no lowercasing, and the
association is appended only when the ibit does not already carry the
category. -/
def addCatLoop (user_id ibit_id : Nat) :
    List String → List TagRow → Nat → List (Nat × Nat) → List String →
    List TagRow × Nat × List (Nat × Nat) × List String
  | [], rows, nid, assoc, added => (rows, nid, assoc, added)
  | cat_name :: rest, rows, nid, assoc, added =>
    let res := resolveOrCreate rows nid user_id cat_name
    if (ibit_id, res.1.id) ∈ assoc then
      addCatLoop user_id ibit_id rest res.2.1 res.2.2 assoc added
    else
      addCatLoop user_id ibit_id rest res.2.1 res.2.2
        (assoc ++ [(ibit_id, res.1.id)]) (added ++ [cat_name])

/-- core.add_categories (core.py lines 180-224), the bot's /addcat
command.  Python's `int(args[0])` is modelled by decimal Nat parsing
(ids are positive). -/
def add_categories (db : DB) (args : List String) (user_id : Nat) :
    DB × AddCatResult :=
  if args.length < 2 then (db, .usage)
  else
    match args with
    | [] => (db, .usage)
    | a0 :: category_names =>
      match pyInt a0 with
      | none => (db, .usage)
      | some ibit_id =>
        match db.ibits.find? (fun i => i.id == ibit_id && i.user_id == user_id) with
        | none => (db, .notFound)
        | some _ =>
          let r := addCatLoop user_id ibit_id category_names
                    db.categories db.next_id db.ibit_categories []
          if insertOK db.categories r.1 then
            ({ db with
                categories := r.1
                ibit_categories := r.2.2.1
                next_id := r.2.1 },
             .added ("Added categories: " ++ String.intercalate ", " r.2.2.2))
          else (db, .failed)

inductive EditBotResult
  | usage
  | notFound
  | updated
deriving DecidableEq, Repr

/-- core.edit_ibit (core.py lines 145-178), the bot's /edit command: it
changes nothing but the text of the addressed note. -/
def edit_ibit (db : DB) (args : List String) (user_id : Nat) :
    DB × EditBotResult :=
  if args.length < 2 then (db, .usage)
  else
    match args with
    | [] => (db, .usage)
    | a0 :: rest =>
      match pyInt a0 with
      | none => (db, .usage)
      | some ibit_id =>
        let new_text := String.intercalate " " rest
        match db.ibits.find? (fun i => i.id == ibit_id && i.user_id == user_id) with
        | none => (db, .notFound)
        | some _ =>
          ({ db with
              ibits := updateFirst (fun i => i.id == ibit_id && i.user_id == user_id)
                (fun i => { i with text := new_text }) db.ibits },
           .updated)

/-- core.generate_quiz (core.py lines 376-417), the bot's quiz: a uniform
random pick over all of the tenant's ibits, with no rotation state read or
written.  `hasClient` is the openai_client check; `aiOk` is whether
generate_quiz_question_with_ai succeeds.  Returns the chosen ibit id. -/
def generate_quiz (db : DB) (user_id seed : Nat) (hasClient aiOk : Bool) :
    Option Nat :=
  if !hasClient then none
  else
    let ibits := db.ibits.filter (fun i => i.user_id == user_id)
    if ibits.isEmpty then none
    else
      let selected_id := (ibits.map (·.id)).getD (seed % ibits.length) 0
      if aiOk then some selected_id else none

end Core

namespace WebUI

inductive WebEditResult
  | notFound
  | ok
  | failed
deriving DecidableEq, Repr

/-- web_ui.edit_ibit (web_ui.py lines 284-351), the manual tag editor:
clears the note's associations, then re-resolves the comma-separated
category/entity/date fields.  Categories and entities are looked up scoped
to the tenant; dates are looked up with no tenant filter and created with
no user_id (lines 336-338). -/
def edit_ibit (db : DB) (ibit_id : Nat)
    (text source categories entities dates : String) (user_id : Nat) :
    DB × WebEditResult :=
  match db.ibits.find? (fun i => i.user_id == user_id && i.id == ibit_id) with
  | none => (db, .notFound)
  | some _ =>
    let source' := if pyStrip source = "" then none else some (pyStrip source)
    let ibits' := updateFirst (fun i => i.user_id == user_id && i.id == ibit_id)
      (fun i => { i with text := pyStrip text, source := source' }) db.ibits
    let assocC0 := clearIbit db.ibit_categories ibit_id
    let assocE0 := clearIbit db.ibit_entities ibit_id
    let assocD0 := clearIbit db.ibit_dates ibit_id
    let c := if pyStrip categories = "" then (db.categories, db.next_id, assocC0)
      else addTagLoop normCategory user_id ibit_id (pySplitComma categories)
            db.categories db.next_id assocC0
    let e := if pyStrip entities = "" then (db.entities, c.2.1, assocE0)
      else addTagLoop normEntity user_id ibit_id (pySplitComma entities)
            db.entities c.2.1 assocE0
    let d := if pyStrip dates = "" then (db.dates, e.2.1, assocD0)
      else webDateLoop ibit_id (pySplitComma dates) db.dates e.2.1 assocD0
    if insertOK db.categories c.1 && insertOK db.entities e.1 && insertOK db.dates d.1 then
      ({ db with
          ibits := ibits'
          categories := c.1
          entities := e.1
          dates := d.1
          ibit_categories := c.2.2
          ibit_entities := e.2.2
          ibit_dates := d.2.2
          next_id := d.2.1 },
       .ok)
    else (db, .failed)

inductive MergeResult
  | notFound
  | selfMerge
  | ok
deriving DecidableEq, Repr

/-- The loaded backref collection `source_entity.ibits`: the ibit ids
associated with the entity, in association-row order. -/
def sourceIbits (assoc : List (Nat × Nat)) (eid : Nat) : List Nat :=
  (assoc.filter (fun p => p.2 == eid)).map (·.1)

/-- The transfer loop of web_ui.merge_entity lines 477-481, with CPython
list-iterator semantics: `ibit.entities.remove(source_entity)` also drops
the ibit from the iterated collection `source_entity.ibits` through
back_populates, so the iterator index `i` advances over a shrinking list.
The loop ends when `i` reaches the current length; since `i` grows by one
per iteration and `L` never grows, `fuel = L.length - i` bounds the
remaining iterations, so calling with `fuel = L.length` (and `i = 0`)
computes the loop exactly (see mergeLoop_fuel_irrel). -/
def mergeLoop (fuel : Nat) (assoc : List (Nat × Nat)) (L : List Nat)
    (i srcId tgtId : Nat) : List (Nat × Nat) :=
  match fuel with
  | 0 => assoc
  | fuel + 1 =>
    if h : i < L.length then
      let x := L.get ⟨i, h⟩
      let a1 := if (x, tgtId) ∈ assoc then assoc else assoc ++ [(x, tgtId)]
      if (x, srcId) ∈ a1 then
        mergeLoop fuel (a1.erase (x, srcId)) (L.erase x) (i + 1) srcId tgtId
      else
        mergeLoop fuel a1 L (i + 1) srcId tgtId
    else assoc

/-- web_ui.merge_entity (web_ui.py lines 451-495): resolve source and
target for the tenant, reject self-merge, transfer associations, mark the
source as an alias of the target.  The target's own linked_to_id is never
inspected. -/
def merge_entity (db : DB) (entity_name target_entity : String) (user_id : Nat) :
    DB × MergeResult :=
  match db.entities.find? (fun e => e.user_id == some user_id && e.value == entity_name),
        db.entities.find? (fun e => e.value == target_entity && e.user_id == some user_id) with
  | some source_entity, some target =>
    if source_entity.id == target.id then (db, .selfMerge)
    else
      let L := sourceIbits db.ibit_entities source_entity.id
      let assoc' := mergeLoop L.length db.ibit_entities L 0 source_entity.id target.id
      let ents' := updateFirst (fun e => e.id == source_entity.id)
        (fun e => { e with linked_to_id := some target.id }) db.entities
      ({ db with ibit_entities := assoc', entities := ents' }, .ok)
  | _, _ => (db, .notFound)

/-- The tenant's note ids as queried at web_ui.py line 562. -/
def userIbitIds (db : DB) (user_id : Nat) : List Nat :=
  (db.ibits.filter (fun i => i.user_id == user_id)).map (·.id)

/-- The tenant's recorded used-id set (empty when no progress row exists,
matching the parse of an empty used_ibit_ids string). -/
def usedOf (db : DB) (user_id : Nat) : List Nat :=
  match db.quiz_progress.find? (fun p => p.user_id == user_id) with
  | some p => p.used_ibit_ids
  | none => []

/-- The pool/reset/pick/record core of web_ui.get_quiz lines 577-591:
subtract the used set from the current ids, reset the cycle when the pool
is empty, pick a pool element (`random.choice`, the element at index
`seed % pool.length`), and add it to the used set.  Returns (selected id,
new used set). -/
def quizSelect (all used : List Nat) (seed : Nat) : Nat × List Nat :=
  let pool0 := all.filter (fun i => !(used.contains i))
  let used1 := if pool0.isEmpty then [] else used
  let pool := if pool0.isEmpty then all else pool0
  let selected_id := pool.getD (seed % pool.length) 0
  (selected_id, if selected_id ∈ used1 then used1 else used1 ++ [selected_id])

/-- web_ui.get_quiz (web_ui.py lines 551-614): load or create the
tenant's quiz progress, subtract the used set from the current note ids,
reset the cycle when the pool is empty, pick a pool element, record it in
the used set and commit — all before question synthesis, whose failure
(`aiOk = false`) raises after the commit.  Returns the chosen ibit id on
success. -/
def get_quiz (db : DB) (user_id seed : Nat) (aiOk : Bool) : DB × Option Nat :=
  let all_ibit_ids := userIbitIds db user_id
  if all_ibit_ids.isEmpty then (db, none)
  else
    let db1 : DB := match db.quiz_progress.find? (fun p => p.user_id == user_id) with
      | some _ => db
      | none => { db with quiz_progress := db.quiz_progress ++ [⟨user_id, []⟩] }
    let r := quizSelect all_ibit_ids (usedOf db user_id) seed
    let qp2 := updateFirst (fun p => p.user_id == user_id)
        (fun p => { p with used_ibit_ids := r.2 }) db1.quiz_progress
    let db2 := { db1 with quiz_progress := qp2 }
    if aiOk then (db2, some r.1) else (db2, none)

/-- N consecutive calls of the web quiz endpoint with question synthesis
succeeding, collecting the returned note ids. -/
def quizRun (db : DB) (user_id : Nat) : List Nat → List (Option Nat) × DB
  | [] => ([], db)
  | seed :: seeds =>
    let r := get_quiz db user_id seed true
    let rest := quizRun r.1 user_id seeds
    (r.2 :: rest.1, rest.2)

end WebUI

/-! ## Helper lemmas -/

theorem find?_append_none {α : Type} {p : α → Bool} {l₁ : List α} (l₂ : List α)
    (h : l₁.find? p = none) : (l₁ ++ l₂).find? p = l₂.find? p := by
  simp [List.find?_append, h]

theorem resolveOrCreate_of_found {rows : List TagRow} {uid : Nat} {v : String}
    {r : TagRow} (nid : Nat) (h : findTag rows uid v = some r) :
    resolveOrCreate rows nid uid v = (r, rows, nid) := by
  unfold resolveOrCreate
  rw [h]

theorem resolveOrCreate_found (rows : List TagRow) (nid uid : Nat) (v : String) :
    findTag (resolveOrCreate rows nid uid v).2.1 uid v
      = some (resolveOrCreate rows nid uid v).1 := by
  unfold resolveOrCreate
  cases h : findTag rows uid v with
  | some r => simpa using h
  | none =>
    simp only
    unfold findTag at h ⊢
    rw [find?_append_none _ h]
    simp

theorem resolveOrCreate_twice (rows : List TagRow) (nid uid : Nat) (v : String) :
    resolveOrCreate (resolveOrCreate rows nid uid v).2.1
      (resolveOrCreate rows nid uid v).2.2 uid v = resolveOrCreate rows nid uid v := by
  rw [resolveOrCreate_of_found _ (resolveOrCreate_found rows nid uid v)]

theorem addTagLoop_assoc_indep (norm : String → String) (uid iid : Nat) :
    ∀ (cs : List String) (rows : List TagRow) (nid : Nat) (a b : List (Nat × Nat)),
      (addTagLoop norm uid iid cs rows nid a).1 = (addTagLoop norm uid iid cs rows nid b).1 ∧
      (addTagLoop norm uid iid cs rows nid a).2.1 = (addTagLoop norm uid iid cs rows nid b).2.1
  | [], _, _, _, _ => ⟨rfl, rfl⟩
  | tag :: rest, rows, nid, a, b => by
    by_cases ht : norm tag = "" <;>
      simp only [addTagLoop, ht, if_pos, if_neg, not_false_iff, ite_true, ite_false] <;>
      exact addTagLoop_assoc_indep norm uid iid rest _ _ _ _

/-! ## Claim theorems -/

/-- Claim C1: for every tenant and tag kind, resolving the same normalized
value twice through the find-or-create used by ingestion and manual edit
(core.py lines 88-118, web_ui.py lines 309-340) returns the same tag row
both times and creates at most one row — both across two calls on the
resulting table (first conjunct) and for a repeated candidate within one
ingestion's candidate loop (second conjunct: the row table and the fresh-id
counter after processing a duplicated candidate equal those after
processing it once). -/
theorem c1_resolve_or_create_idempotent :
    (∀ (rows : List TagRow) (nid uid : Nat) (v : String),
      resolveOrCreate (resolveOrCreate rows nid uid v).2.1
        (resolveOrCreate rows nid uid v).2.2 uid v = resolveOrCreate rows nid uid v) ∧
    (∀ (norm : String → String) (uid iid : Nat) (tag : String) (rest : List String)
      (rows : List TagRow) (nid : Nat) (assoc : List (Nat × Nat)),
      (addTagLoop norm uid iid (tag :: tag :: rest) rows nid assoc).1
          = (addTagLoop norm uid iid (tag :: rest) rows nid assoc).1 ∧
      (addTagLoop norm uid iid (tag :: tag :: rest) rows nid assoc).2.1
          = (addTagLoop norm uid iid (tag :: rest) rows nid assoc).2.1) := by
  constructor
  · exact resolveOrCreate_twice
  · intro norm uid iid tag rest rows nid assoc
    by_cases ht : norm tag = ""
    · simp only [addTagLoop, ht, ite_true, if_pos]
      trivial
    · simp only [addTagLoop, ht, ite_false, if_neg, not_false_iff]
      rw [resolveOrCreate_twice]
      exact addTagLoop_assoc_indep norm uid iid rest _ _ _ _

/-- Claim C5: when extraction fails (the external service is unavailable,
errors, or returns unparsable content, all of which make
extract_metadata_with_ai return None), add_ibit still creates exactly one
Note carrying the input text, with no source, no tag rows and no tag
associations, and reports the success confirmation. -/
theorem c5_extraction_failure_fallback (db : DB) (text : String) (uid now : Nat) :
    Core.add_ibit db text uid now none =
      ({ db with
          ibits := db.ibits ++ [⟨db.next_id, text, none, now, uid⟩],
          next_id := db.next_id + 1 }, .stored "✅ Ibit stored!") := by
  unfold Core.add_ibit
  simp only [Option.getD, emptyMetadata, addTagLoop, insertOK, List.drop_length,
    List.map_nil, allFresh, Bool.and_self, if_pos]
  rfl

/-- Claim C2 (code bug): the schema's uniqueness is global, not scoped to
(tenant, value).  With tenant 1 owning category "finance" (a committed row),
tenant 2's ingestion of a note whose extracted categories are ["finance"]
finds nothing in its own scope, inserts a second "finance" row, violates the
global UNIQUE constraint of database.py line 38 at commit, and the whole
ingestion rolls back and fails — instead of giving tenant 2 its own distinct
row as the claim states. -/
theorem c2_second_tenant_same_value_fails :
    Core.add_ibit ⟨[], [⟨1, "finance", some 1, none⟩], [], [], [], [], [], [], 2⟩
        "ran a marathon" 2 5 (some ⟨["finance"], [], [], none⟩)
      = (⟨[], [⟨1, "finance", some 1, none⟩], [], [], [], [], [], [], 2⟩, .failed) := by
  decide

/-- Claim C3 (code bug): merging entity A (id 1) into B (id 2) for tenant 1,
with notes 3 and 4 both associated with A, leaves note 4 still associated
with A and never associated with B: the transfer loop of web_ui.py lines
477-481 removes the current ibit from the very collection it iterates
(through the back_populates of `ibit.entities.remove(source_entity)`), so
every second ibit is skipped. -/
theorem c3_merge_skips_every_second_note :
    (WebUI.merge_entity
        ⟨[⟨3, "n1", none, 0, 1⟩, ⟨4, "n2", none, 0, 1⟩], [],
         [⟨1, "A", some 1, none⟩, ⟨2, "B", some 1, none⟩], [],
         [], [(3, 1), (4, 1)], [], [], 5⟩ "A" "B" 1).2 = .ok ∧
    (WebUI.merge_entity
        ⟨[⟨3, "n1", none, 0, 1⟩, ⟨4, "n2", none, 0, 1⟩], [],
         [⟨1, "A", some 1, none⟩, ⟨2, "B", some 1, none⟩], [],
         [], [(3, 1), (4, 1)], [], [], 5⟩ "A" "B" 1).1.ibit_entities
      = [(4, 1), (3, 2)] := by
  decide

/-- Claim C4 counterexample: with tenant 1 owning entities A (id 1),
B (id 2, already redirecting to C) and C (id 3), merging A into B is neither
rejected nor resolved transitively: it succeeds and stores the two-hop chain
A → B → C. -/
theorem c4_counterexample_two_hop_chain :
    (WebUI.merge_entity
        ⟨[], [], [⟨1, "A", some 1, none⟩, ⟨2, "B", some 1, some 3⟩,
                  ⟨3, "C", some 1, none⟩], [], [], [], [], [], 4⟩ "A" "B" 1).2 = .ok ∧
    (WebUI.merge_entity
        ⟨[], [], [⟨1, "A", some 1, none⟩, ⟨2, "B", some 1, some 3⟩,
                  ⟨3, "C", some 1, none⟩], [], [], [], [], [], 4⟩ "A" "B" 1).1.entities
      = [⟨1, "A", some 1, some 2⟩, ⟨2, "B", some 1, some 3⟩, ⟨3, "C", some 1, none⟩] := by
  decide

/-- Claim C6 counterexample: the bot-side quiz (core.generate_quiz, cited by
the claim) keeps no per-tenant used set at all: for a tenant with N = 2
stored notes, two consecutive calls can both return note 1 (it samples
uniformly from all notes each time and writes no state), so N consecutive
calls do not return N distinct identifiers. -/
theorem c6_counterexample_bot_quiz_repeats :
    (WebUI.userIbitIds ⟨[⟨1, "a", none, 0, 1⟩, ⟨2, "b", none, 0, 1⟩],
        [], [], [], [], [], [], [], 3⟩ 1).length = 2 ∧
    [Core.generate_quiz ⟨[⟨1, "a", none, 0, 1⟩, ⟨2, "b", none, 0, 1⟩],
        [], [], [], [], [], [], [], 3⟩ 1 0 true true,
     Core.generate_quiz ⟨[⟨1, "a", none, 0, 1⟩, ⟨2, "b", none, 0, 1⟩],
        [], [], [], [], [], [], [], 3⟩ 1 0 true true]
      = [some 1, some 1] ∧
    ¬ ([1, 1] : List Nat).Nodup := by
  decide

/-- Claim C7 counterexample: a quiz request that fails during question
synthesis reports failure (`none`) but does not leave the store as it was:
the tenant's rotation state has already been committed with the selected
note id recorded (web_ui.py commits at line 595, before the question
synthesis whose failure raises at line 602). -/
theorem c7_counterexample_failed_quiz_commits_progress :
    (WebUI.get_quiz ⟨[⟨1, "t", none, 0, 1⟩], [], [], [], [], [], [],
        [⟨1, []⟩], 2⟩ 1 0 false).2 = none ∧
    (WebUI.get_quiz ⟨[⟨1, "t", none, 0, 1⟩], [], [], [], [], [], [],
        [⟨1, []⟩], 2⟩ 1 0 false).1.quiz_progress = [⟨1, [1]⟩] ∧
    (WebUI.get_quiz ⟨[⟨1, "t", none, 0, 1⟩], [], [], [], [], [], [],
        [⟨1, []⟩], 2⟩ 1 0 false).1
      ≠ ⟨[⟨1, "t", none, 0, 1⟩], [], [], [], [], [], [], [⟨1, []⟩], 2⟩ := by
  decide

/-- Claim C8 counterexample: the bot's /addcat manual tag command resolves
and stores the category argument exactly as typed — "Finance" is stored,
although its trimmed-and-lowercased normal form is "finance" — so not every
tag-resolving path lowercases category values. -/
theorem c8_counterexample_addcat_not_lowercased :
    (Core.add_categories ⟨[⟨1, "note", none, 0, 1⟩], [], [], [], [], [], [], [], 2⟩
        ["1", "Finance"] 1).1.categories = [⟨2, "Finance", some 1, none⟩] ∧
    normCategory "Finance" = "finance" ∧ "finance" ≠ "Finance" := by
  decide

/-- Claim C9 (code bug): the web editor's date path (web_ui.py lines
336-338) looks dates up with no tenant filter: tenant 2 editing its note
(id 2) with dates "2024-01-01" gets the note associated with tenant 1's
date row (id 1), a cross-tenant association, while the date row keeps its
owner tenant 1. -/
theorem c9_web_edit_cross_tenant_date :
    (WebUI.edit_ibit ⟨[⟨2, "x", none, 0, 2⟩], [], [], [⟨1, "2024-01-01", some 1, none⟩],
        [], [], [], [], 3⟩ 2 "x" "" "" "" "2024-01-01" 2).2 = .ok ∧
    (WebUI.edit_ibit ⟨[⟨2, "x", none, 0, 2⟩], [], [], [⟨1, "2024-01-01", some 1, none⟩],
        [], [], [], [], 3⟩ 2 "x" "" "" "" "2024-01-01" 2).1.ibit_dates = [(2, 1)] ∧
    (WebUI.edit_ibit ⟨[⟨2, "x", none, 0, 2⟩], [], [], [⟨1, "2024-01-01", some 1, none⟩],
        [], [], [], [], 3⟩ 2 "x" "" "" "" "2024-01-01" 2).1.dates
      = [⟨1, "2024-01-01", some 1, none⟩] := by
  decide

theorem updateFirst_eq_map_of_nodup {α : Type} (k : α → Nat) (key : Nat)
    (p : α → Bool) (f : α → α) (hp : ∀ x, p x = true → k x = key) :
    ∀ l : List α, (l.map k).Nodup →
      updateFirst p f l = l.map (fun x => if p x then f x else x)
  | [], _ => rfl
  | x :: xs, hnd => by
    have hnd' : (xs.map k).Nodup := (List.nodup_cons.mp (by simpa using hnd)).2
    have hx : k x ∉ xs.map k := (List.nodup_cons.mp (by simpa using hnd)).1
    by_cases hpx : p x = true
    · have hxs : ∀ y ∈ xs, p y = false := by
        intro y hy
        by_contra hC
        have hpy : p y = true := by
          cases hpy2 : p y
          · exact absurd hpy2 hC
          · rfl
        have : k y = key := hp y hpy
        exact hx (by
          rw [← hp x hpx] at this
          exact this ▸ List.mem_map_of_mem k hy)
      have : xs.map (fun y => if p y then f y else y) = xs := by
        have := List.map_congr_left (l := xs)
          (f := fun y => if p y then f y else y) (g := fun y => y)
          (fun a ha => by simp [hxs a ha])
        simpa using this
      simp [updateFirst, hpx, this]
    · simp only [updateFirst, hpx, ite_false, if_neg]
      rw [updateFirst_eq_map_of_nodup k key p f hp xs hnd']
      simp [hpx]

/-- Claim C10: the bot-side /edit command changes only the addressed note's
text: every other field of that note, every other note, every vocabulary
row, every association table and the quiz state are unchanged (the result's
only difference from the input store is the map that rewrites the matching
note's text). -/
theorem c10_bot_edit_only_text (db : DB) (s : String) (rest : List String)
    (uid iid : Nat) (n : IbitRow)
    (hnd : (db.ibits.map (·.id)).Nodup)
    (hs : pyInt s = some iid)
    (hrest : rest ≠ [])
    (hfind : db.ibits.find? (fun i => i.id == iid && i.user_id == uid) = some n) :
    Core.edit_ibit db (s :: rest) uid =
      ({ db with ibits := db.ibits.map (fun m =>
          if m.id == iid && m.user_id == uid
          then { m with text := String.intercalate " " rest } else m) }, .updated) := by
  unfold Core.edit_ibit
  have hlen : ¬ ((s :: rest).length < 2) := by
    cases rest with
    | nil => exact absurd rfl hrest
    | cons a as => simp [List.length_cons]
  rw [if_neg hlen]
  simp only [hs, hfind]
  rw [updateFirst_eq_map_of_nodup (·.id) iid _ _ (fun x hx => by
    simp only [Bool.and_eq_true, beq_iff_eq] at hx
    exact hx.1) db.ibits hnd]

/-- Witness for C10 at a concrete store: editing note 1 with /edit 1 new
text rewrites only its text. -/
theorem c10_witness :
    Core.edit_ibit ⟨[⟨1, "old", none, 0, 1⟩], [], [], [], [], [], [], [], 2⟩
        ["1", "new", "text"] 1
      = (⟨[⟨1, "new text", none, 0, 1⟩], [], [], [], [], [], [], [], 2⟩, .updated) :=
  c10_bot_edit_only_text ⟨[⟨1, "old", none, 0, 1⟩], [], [], [], [], [], [], [], 2⟩
    "1" ["new", "text"] 1 1 ⟨1, "old", none, 0, 1⟩
    (by decide) (by decide) (by decide) (by decide)

/-- Claim C4 (amended): the merge operation never inspects redirect
pointers.  For any tenant and any two distinct resolvable entities, the
merge succeeds unconditionally, sets the source's redirect pointer to the
target, and leaves every other entity row — in particular a target that
already carries a redirect pointer — exactly as it was, so merging into an
already-redirected target stores a two-hop chain rather than rejecting or
resolving it. -/
theorem c4_amended_merge_ignores_target_pointer (db : DB)
    (ename tname : String) (uid : Nat) (src tgt : TagRow)
    (hnd : (db.entities.map (·.id)).Nodup)
    (hsrc : db.entities.find?
      (fun e => e.user_id == some uid && e.value == ename) = some src)
    (htgt : db.entities.find?
      (fun e => e.value == tname && e.user_id == some uid) = some tgt)
    (hne : src.id ≠ tgt.id) :
    (WebUI.merge_entity db ename tname uid).2 = .ok ∧
    { src with linked_to_id := some tgt.id }
      ∈ (WebUI.merge_entity db ename tname uid).1.entities ∧
    ∀ e ∈ db.entities, e.id ≠ src.id →
      e ∈ (WebUI.merge_entity db ename tname uid).1.entities := by
  unfold WebUI.merge_entity
  simp only [hsrc, htgt]
  rw [if_neg (by simpa using hne)]
  have hmap := updateFirst_eq_map_of_nodup (·.id) src.id
    (fun e => e.id == src.id) (fun e => { e with linked_to_id := some tgt.id })
    (fun x hx => by simpa using hx) db.entities hnd
  refine ⟨rfl, ?_, ?_⟩
  · simp only [hmap]
    have hmem : src ∈ db.entities := List.mem_of_find?_eq_some hsrc
    have := List.mem_map_of_mem
      (fun e => if e.id == src.id then { e with linked_to_id := some tgt.id } else e) hmem
    simpa using this
  · intro e he hne2
    simp only [hmap]
    have := List.mem_map_of_mem
      (fun x => if x.id == src.id then { x with linked_to_id := some tgt.id } else x) he
    simpa [hne2] using this

/-- Witness for C4 at the chain-forming store: merging A into the
already-redirected B succeeds, points A at B and keeps B pointing at C. -/
theorem c4_witness :
    (WebUI.merge_entity
        ⟨[], [], [⟨1, "A", some 1, none⟩, ⟨2, "B", some 1, some 3⟩,
                  ⟨3, "C", some 1, none⟩], [], [], [], [], [], 4⟩ "A" "B" 1).2 = .ok ∧
    (⟨1, "A", some 1, some 2⟩ : TagRow)
      ∈ (WebUI.merge_entity
        ⟨[], [], [⟨1, "A", some 1, none⟩, ⟨2, "B", some 1, some 3⟩,
                  ⟨3, "C", some 1, none⟩], [], [], [], [], [], 4⟩ "A" "B" 1).1.entities ∧
    ∀ e ∈ ([⟨1, "A", some 1, none⟩, ⟨2, "B", some 1, some 3⟩,
            ⟨3, "C", some 1, none⟩] : List TagRow), e.id ≠ 1 →
      e ∈ (WebUI.merge_entity
        ⟨[], [], [⟨1, "A", some 1, none⟩, ⟨2, "B", some 1, some 3⟩,
                  ⟨3, "C", some 1, none⟩], [], [], [], [], [], 4⟩ "A" "B" 1).1.entities :=
  c4_amended_merge_ignores_target_pointer
    ⟨[], [], [⟨1, "A", some 1, none⟩, ⟨2, "B", some 1, some 3⟩,
              ⟨3, "C", some 1, none⟩], [], [], [], [], [], 4⟩
    "A" "B" 1 ⟨1, "A", some 1, none⟩ ⟨2, "B", some 1, some 3⟩
    (by decide) (by decide) (by decide) (by decide)

/-- Claim C7 (amended): a failed ingestion does roll back fully — whenever
add_ibit reports failure the store is exactly as before (first conjunct) —
but a quiz request that fails during question synthesis does not: it
reports failure while committing exactly the same rotation-state update a
successful call would have committed (second conjunct), so the selected
note id is recorded in the per-tenant used set despite the reported
failure. -/
theorem c7_amended_rollback_except_quiz :
    (∀ (db : DB) (text : String) (uid now : Nat) (md? : Option Metadata),
      (Core.add_ibit db text uid now md?).2 = .failed →
      (Core.add_ibit db text uid now md?).1 = db) ∧
    (∀ (db : DB) (uid seed : Nat),
      (WebUI.get_quiz db uid seed false).2 = none ∧
      (WebUI.get_quiz db uid seed false).1 = (WebUI.get_quiz db uid seed true).1) := by
  constructor
  · intro db text uid now md?
    unfold Core.add_ibit
    dsimp only
    split
    · intro h
      exact absurd h (by simp)
    · intro _
      rfl
  · intro db uid seed
    unfold WebUI.get_quiz
    dsimp only
    by_cases hE : (WebUI.userIbitIds db uid).isEmpty = true
    · simp only [if_pos hE]
      trivial
    · simp only [if_neg hE]
      exact ⟨rfl, rfl⟩

/-- Witness for C7 at concrete stores: a failing ingestion (global UNIQUE
collision with another tenant's "fitness" row) leaves the store unchanged,
and a quiz call whose synthesis fails reports `none` while writing the
same store a successful call would. -/
theorem c7_witness :
    (Core.add_ibit ⟨[], [⟨1, "fitness", some 1, none⟩], [], [], [], [], [], [], 2⟩
        "hello" 2 5 (some ⟨["fitness"], [], [], none⟩)).1
      = ⟨[], [⟨1, "fitness", some 1, none⟩], [], [], [], [], [], [], 2⟩ ∧
    ((WebUI.get_quiz ⟨[⟨1, "t", none, 0, 1⟩], [], [], [], [], [], [],
        [⟨1, []⟩], 2⟩ 1 0 false).2 = none ∧
      (WebUI.get_quiz ⟨[⟨1, "t", none, 0, 1⟩], [], [], [], [], [], [],
        [⟨1, []⟩], 2⟩ 1 0 false).1
        = (WebUI.get_quiz ⟨[⟨1, "t", none, 0, 1⟩], [], [], [], [], [], [],
            [⟨1, []⟩], 2⟩ 1 0 true).1) :=
  ⟨c7_amended_rollback_except_quiz.1
      ⟨[], [⟨1, "fitness", some 1, none⟩], [], [], [], [], [], [], 2⟩
      "hello" 2 5 (some ⟨["fitness"], [], [], none⟩) (by decide),
   c7_amended_rollback_except_quiz.2
      ⟨[⟨1, "t", none, 0, 1⟩], [], [], [], [], [], [], [⟨1, []⟩], 2⟩ 1 0⟩

theorem mem_resolveOrCreate_rows {rows : List TagRow} {nid uid : Nat} {v : String}
    {r : TagRow} (h : r ∈ (resolveOrCreate rows nid uid v).2.1) :
    r ∈ rows ∨ r.value = v := by
  unfold resolveOrCreate at h
  cases hf : findTag rows uid v with
  | some q =>
    rw [hf] at h
    exact Or.inl h
  | none =>
    rw [hf] at h
    simp only at h
    rcases List.mem_append.mp h with h2 | h2
    · exact Or.inl h2
    · have hr : r = ⟨nid, v, some uid, none⟩ := by simpa using h2
      subst hr
      exact Or.inr rfl

theorem mem_resolveOrCreateGlobalDate_rows {rows : List TagRow} {nid : Nat}
    {v : String} {r : TagRow} (h : r ∈ (resolveOrCreateGlobalDate rows nid v).2.1) :
    r ∈ rows ∨ r.value = v := by
  unfold resolveOrCreateGlobalDate at h
  cases hf : rows.find? (fun q => q.value == v) with
  | some q =>
    rw [hf] at h
    exact Or.inl h
  | none =>
    rw [hf] at h
    simp only at h
    rcases List.mem_append.mp h with h2 | h2
    · exact Or.inl h2
    · have hr : r = ⟨nid, v, none, none⟩ := by simpa using h2
      subst hr
      exact Or.inr rfl

theorem addTagLoop_value_shape (norm : String → String) (uid iid : Nat) :
    ∀ (cs : List String) (rows : List TagRow) (nid : Nat) (assoc : List (Nat × Nat))
      (r : TagRow), r ∈ (addTagLoop norm uid iid cs rows nid assoc).1 →
      r ∈ rows ∨ r.value ∈ cs.map norm
  | [], _, _, _, _ => fun h => Or.inl h
  | tag :: rest, rows, nid, assoc, r => by
    by_cases ht : norm tag = ""
    · simp only [addTagLoop, ht, ite_true, if_pos]
      intro h
      rcases addTagLoop_value_shape norm uid iid rest rows nid assoc r h with h1 | h1
      · exact Or.inl h1
      · exact Or.inr (List.mem_cons_of_mem _ h1)
    · simp only [addTagLoop, ht, ite_false, if_neg, not_false_iff]
      intro h
      rcases addTagLoop_value_shape norm uid iid rest _ _ _ r h with h1 | h1
      · rcases mem_resolveOrCreate_rows h1 with h2 | h2
        · exact Or.inl h2
        · exact Or.inr (by simp [h2])
      · exact Or.inr (List.mem_cons_of_mem _ h1)

theorem webDateLoop_value_shape (iid : Nat) :
    ∀ (cs : List String) (rows : List TagRow) (nid : Nat) (assoc : List (Nat × Nat))
      (r : TagRow), r ∈ (webDateLoop iid cs rows nid assoc).1 →
      r ∈ rows ∨ r.value ∈ cs.map normDate
  | [], _, _, _, _ => fun h => Or.inl h
  | d :: rest, rows, nid, assoc, r => by
    by_cases ht : pyStrip d = ""
    · simp only [webDateLoop, ht, ite_true, if_pos]
      intro h
      rcases webDateLoop_value_shape iid rest rows nid assoc r h with h1 | h1
      · exact Or.inl h1
      · exact Or.inr (List.mem_cons_of_mem _ h1)
    · simp only [webDateLoop, ht, ite_false, if_neg, not_false_iff]
      intro h
      rcases webDateLoop_value_shape iid rest _ _ _ r h with h1 | h1
      · rcases mem_resolveOrCreateGlobalDate_rows h1 with h2 | h2
        · exact Or.inl h2
        · exact Or.inr (by simp [h2, normDate])
      · exact Or.inr (List.mem_cons_of_mem _ h1)

theorem addCatLoop_value_shape (uid iid : Nat) :
    ∀ (cs : List String) (rows : List TagRow) (nid : Nat) (assoc : List (Nat × Nat))
      (added : List String) (r : TagRow),
      r ∈ (Core.addCatLoop uid iid cs rows nid assoc added).1 →
      r ∈ rows ∨ r.value ∈ cs
  | [], _, _, _, _, _ => fun h => Or.inl h
  | cat :: rest, rows, nid, assoc, added, r => by
    simp only [Core.addCatLoop]
    intro h
    have hmain : r ∈ (resolveOrCreate rows nid uid cat).2.1 ∨ r.value ∈ rest := by
      split at h
      · exact addCatLoop_value_shape uid iid rest _ _ _ _ r h
      · exact addCatLoop_value_shape uid iid rest _ _ _ _ r h
    rcases hmain with h1 | h1
    · rcases mem_resolveOrCreate_rows h1 with h2 | h2
      · exact Or.inl h2
      · exact Or.inr (by simp [h2])
    · exact Or.inr (List.mem_cons_of_mem _ h1)

theorem add_ibit_categories_shape (db : DB) (text : String) (uid now : Nat)
    (md : Metadata) (r : TagRow)
    (h : r ∈ (Core.add_ibit db text uid now (some md)).1.categories) :
    r ∈ db.categories ∨ r.value ∈ md.categories.map normCategory := by
  unfold Core.add_ibit at h
  dsimp only at h
  split at h
  · exact addTagLoop_value_shape normCategory uid db.next_id md.categories
      db.categories (db.next_id + 1) db.ibit_categories r h
  · exact Or.inl h

theorem add_ibit_entities_shape (db : DB) (text : String) (uid now : Nat)
    (md : Metadata) (r : TagRow)
    (h : r ∈ (Core.add_ibit db text uid now (some md)).1.entities) :
    r ∈ db.entities ∨ r.value ∈ md.entities.map normEntity := by
  unfold Core.add_ibit at h
  dsimp only at h
  split at h
  · exact addTagLoop_value_shape normEntity uid db.next_id md.entities
      db.entities _ db.ibit_entities r h
  · exact Or.inl h

theorem add_ibit_dates_shape (db : DB) (text : String) (uid now : Nat)
    (md : Metadata) (r : TagRow)
    (h : r ∈ (Core.add_ibit db text uid now (some md)).1.dates) :
    r ∈ db.dates ∨ r.value ∈ md.dates.map normDate := by
  unfold Core.add_ibit at h
  dsimp only at h
  split at h
  · exact addTagLoop_value_shape normDate uid db.next_id md.dates
      db.dates _ db.ibit_dates r h
  · exact Or.inl h

theorem web_edit_categories_shape (db : DB) (iid : Nat)
    (text source categories entities dates : String) (uid : Nat) (r : TagRow)
    (h : r ∈ (WebUI.edit_ibit db iid text source categories entities dates uid).1.categories) :
    r ∈ db.categories ∨ r.value ∈ (pySplitComma categories).map normCategory := by
  unfold WebUI.edit_ibit at h
  dsimp only at h
  split at h
  · exact Or.inl h
  · repeat' split at h
    all_goals
      first
        | exact Or.inl h
        | exact addTagLoop_value_shape normCategory uid iid (pySplitComma categories)
            db.categories db.next_id (clearIbit db.ibit_categories iid) r h

theorem web_edit_entities_shape (db : DB) (iid : Nat)
    (text source categories entities dates : String) (uid : Nat) (r : TagRow)
    (h : r ∈ (WebUI.edit_ibit db iid text source categories entities dates uid).1.entities) :
    r ∈ db.entities ∨ r.value ∈ (pySplitComma entities).map normEntity := by
  unfold WebUI.edit_ibit at h
  dsimp only at h
  split at h
  · exact Or.inl h
  · repeat' split at h
    all_goals
      first
        | exact Or.inl h
        | exact addTagLoop_value_shape normEntity uid iid (pySplitComma entities)
            db.entities _ (clearIbit db.ibit_entities iid) r h

theorem web_edit_dates_shape (db : DB) (iid : Nat)
    (text source categories entities dates : String) (uid : Nat) (r : TagRow)
    (h : r ∈ (WebUI.edit_ibit db iid text source categories entities dates uid).1.dates) :
    r ∈ db.dates ∨ r.value ∈ (pySplitComma dates).map normDate := by
  unfold WebUI.edit_ibit at h
  dsimp only at h
  split at h
  · exact Or.inl h
  · repeat' split at h
    all_goals
      first
        | exact Or.inl h
        | exact webDateLoop_value_shape iid (pySplitComma dates) db.dates _
            (clearIbit db.ibit_dates iid) r h

theorem add_categories_shape (db : DB) (args : List String) (uid : Nat) (r : TagRow)
    (h : r ∈ (Core.add_categories db args uid).1.categories) :
    r ∈ db.categories ∨ r.value ∈ args.tail := by
  unfold Core.add_categories at h
  dsimp only at h
  repeat' split at h
  all_goals
    first
      | exact Or.inl h
      | exact addCatLoop_value_shape uid _ _ db.categories db.next_id
          db.ibit_categories [] r h

/-- Claim C8 (amended): on the AI ingestion path and on the web manual
editor, category values are trimmed and lowercased before lookup/creation,
entity values trimmed with case preserved, and date values only trimmed
with no format validation (every row these paths create carries a value of
the corresponding normalized shape); the bot's /addcat manual tag command,
however, resolves and stores its category arguments exactly as typed, with
no trimming and no lowercasing. -/
theorem c8_amended_normalization_paths :
    (∀ (db : DB) (text : String) (uid now : Nat) (md : Metadata) (r : TagRow),
      r ∈ (Core.add_ibit db text uid now (some md)).1.categories →
      r ∈ db.categories ∨ r.value ∈ md.categories.map normCategory) ∧
    (∀ (db : DB) (text : String) (uid now : Nat) (md : Metadata) (r : TagRow),
      r ∈ (Core.add_ibit db text uid now (some md)).1.entities →
      r ∈ db.entities ∨ r.value ∈ md.entities.map normEntity) ∧
    (∀ (db : DB) (text : String) (uid now : Nat) (md : Metadata) (r : TagRow),
      r ∈ (Core.add_ibit db text uid now (some md)).1.dates →
      r ∈ db.dates ∨ r.value ∈ md.dates.map normDate) ∧
    (∀ (db : DB) (iid : Nat) (text source categories entities dates : String)
      (uid : Nat) (r : TagRow),
      r ∈ (WebUI.edit_ibit db iid text source categories entities dates uid).1.categories →
      r ∈ db.categories ∨ r.value ∈ (pySplitComma categories).map normCategory) ∧
    (∀ (db : DB) (iid : Nat) (text source categories entities dates : String)
      (uid : Nat) (r : TagRow),
      r ∈ (WebUI.edit_ibit db iid text source categories entities dates uid).1.entities →
      r ∈ db.entities ∨ r.value ∈ (pySplitComma entities).map normEntity) ∧
    (∀ (db : DB) (iid : Nat) (text source categories entities dates : String)
      (uid : Nat) (r : TagRow),
      r ∈ (WebUI.edit_ibit db iid text source categories entities dates uid).1.dates →
      r ∈ db.dates ∨ r.value ∈ (pySplitComma dates).map normDate) ∧
    (∀ (db : DB) (args : List String) (uid : Nat) (r : TagRow),
      r ∈ (Core.add_categories db args uid).1.categories →
      r ∈ db.categories ∨ r.value ∈ args.tail) :=
  ⟨add_ibit_categories_shape, add_ibit_entities_shape, add_ibit_dates_shape,
   web_edit_categories_shape, web_edit_entities_shape, web_edit_dates_shape,
   add_categories_shape⟩

/-- Witness for C8: an ingested candidate "  Fitness " yields a row whose
value is its trimmed lowercased form "fitness", and the /addcat argument
"Finance" yields a row whose value is the raw argument. -/
theorem c8_witness :
    ((⟨3, "fitness", some 1, none⟩ : TagRow) ∈
        (Core.add_ibit ⟨[], [], [], [], [], [], [], [], 2⟩ "t" 1 0
          (some ⟨["  Fitness "], [], [], none⟩)).1.categories ∧
      ((⟨3, "fitness", some 1, none⟩ : TagRow) ∈ ([] : List TagRow) ∨
        (⟨3, "fitness", some 1, none⟩ : TagRow).value
          ∈ (["  Fitness "].map normCategory))) ∧
    ((⟨2, "Finance", some 1, none⟩ : TagRow) ∈
        (Core.add_categories ⟨[⟨1, "note", none, 0, 1⟩], [], [], [], [], [], [], [], 2⟩
          ["1", "Finance"] 1).1.categories ∧
      ((⟨2, "Finance", some 1, none⟩ : TagRow) ∈ ([] : List TagRow) ∨
        (⟨2, "Finance", some 1, none⟩ : TagRow).value
          ∈ (["1", "Finance"] : List String).tail)) :=
  ⟨⟨by decide,
    c8_amended_normalization_paths.1 ⟨[], [], [], [], [], [], [], [], 2⟩ "t" 1 0
      ⟨["  Fitness "], [], [], none⟩ ⟨3, "fitness", some 1, none⟩ (by decide)⟩,
   ⟨by decide,
    c8_amended_normalization_paths.2.2.2.2.2.2
      ⟨[⟨1, "note", none, 0, 1⟩], [], [], [], [], [], [], [], 2⟩
      ["1", "Finance"] 1 ⟨2, "Finance", some 1, none⟩ (by decide)⟩⟩

theorem find?_updateFirst_of_found {α : Type} {p : α → Bool} {f : α → α} :
    ∀ {l : List α} {r : α}, l.find? p = some r → p (f r) = true →
      (updateFirst p f l).find? p = some (f r)
  | [], r, h, _ => by simp at h
  | x :: xs, r, h, hf => by
    by_cases hx : p x = true
    · rw [List.find?_cons_of_pos _ hx] at h
      injection h with h2
      subst h2
      have hu : updateFirst p f (x :: xs) = f x :: xs := by
        simp [updateFirst, hx]
      rw [hu, List.find?_cons_of_pos _ hf]
    · rw [List.find?_cons_of_neg _ hx] at h
      have hu : updateFirst p f (x :: xs) = x :: updateFirst p f xs := by
        simp [updateFirst, hx]
      rw [hu, List.find?_cons_of_neg _ hx]
      exact find?_updateFirst_of_found h hf

theorem updateFirst_append_of_neg {α : Type} {p : α → Bool} {f : α → α} :
    ∀ (l l2 : List α), (∀ x ∈ l, ¬ p x = true) →
      updateFirst p f (l ++ l2) = l ++ updateFirst p f l2
  | [], _, _ => rfl
  | x :: xs, l2, h => by
    have hx : ¬ p x = true := h x (List.mem_cons_self x xs)
    have hu : updateFirst p f (x :: (xs ++ l2)) = x :: updateFirst p f (xs ++ l2) := by
      simp [updateFirst, hx]
    simp only [List.cons_append]
    rw [hu, updateFirst_append_of_neg xs l2 (fun y hy => h y (List.mem_cons_of_mem _ hy))]

theorem nodup_subset_length_le {l₁ l₂ : List Nat} (h : l₁.Nodup)
    (hs : ∀ x ∈ l₁, x ∈ l₂) : l₁.length ≤ l₂.length := by
  have h2 : l₁.toFinset ⊆ l₂.toFinset := by
    intro x hx
    exact List.mem_toFinset.mpr (hs x (List.mem_toFinset.mp hx))
  calc l₁.length = l₁.toFinset.card := (List.toFinset_card_of_nodup h).symm
    _ ≤ l₂.toFinset.card := Finset.card_le_card h2
    _ ≤ l₂.length := List.toFinset_card_le l₂

theorem getD_mod_mem {l : List Nat} (hl : l ≠ []) (n : Nat) :
    l.getD (n % l.length) 0 ∈ l := by
  have hpos : 0 < l.length := List.length_pos.mpr hl
  have hlt : n % l.length < l.length := Nat.mod_lt _ hpos
  rw [List.getD_eq_getElem?_getD, List.getElem?_eq_getElem hlt]
  simp only [Option.getD_some]
  exact List.getElem_mem hlt


theorem quizSelect_no_reset (all used : List Nat) (seed : Nat)
    (hne : all.filter (fun i => !(used.contains i)) ≠ []) :
    (WebUI.quizSelect all used seed).1 ∈ all.filter (fun i => !(used.contains i)) ∧
    (WebUI.quizSelect all used seed).2
      = used ++ [(WebUI.quizSelect all used seed).1] := by
  unfold WebUI.quizSelect
  dsimp only
  have hp0 : ¬ ((all.filter (fun i => !(used.contains i))).isEmpty = true) := by
    simpa [List.isEmpty_iff] using hne
  rw [if_neg hp0, if_neg hp0]
  have hmem : (all.filter (fun i => !(used.contains i))).getD
      (seed % (all.filter (fun i => !(used.contains i))).length) 0
      ∈ all.filter (fun i => !(used.contains i)) := getD_mod_mem hne seed
  have hnotused : (all.filter (fun i => !(used.contains i))).getD
      (seed % (all.filter (fun i => !(used.contains i))).length) 0 ∉ used := by
    have hc := (List.mem_filter.mp hmem).2
    simp only [Bool.not_eq_true'] at hc
    simpa using hc
  exact ⟨hmem, by rw [if_neg hnotused]⟩

theorem get_quiz_step (db : DB) (uid seed : Nat)
    (hne : ¬ ((WebUI.userIbitIds db uid).isEmpty = true)) :
    (WebUI.get_quiz db uid seed true).2
        = some (WebUI.quizSelect (WebUI.userIbitIds db uid)
            (WebUI.usedOf db uid) seed).1 ∧
    (WebUI.get_quiz db uid seed true).1.ibits = db.ibits ∧
    WebUI.usedOf (WebUI.get_quiz db uid seed true).1 uid
        = (WebUI.quizSelect (WebUI.userIbitIds db uid)
            (WebUI.usedOf db uid) seed).2 := by
  unfold WebUI.get_quiz
  dsimp only
  rw [if_neg hne]
  cases hq : db.quiz_progress.find? (fun p => p.user_id == uid) with
  | some p =>
    simp only [hq]
    refine ⟨rfl, rfl, ?_⟩
    unfold WebUI.usedOf
    simp only [hq, if_true]
    have hpf : ((fun q : QuizProgressRow => q.user_id == uid)
        { p with used_ibit_ids :=
          (WebUI.quizSelect (WebUI.userIbitIds db uid) p.used_ibit_ids seed).2 }) = true := by
      have hb := List.find?_some hq
      simpa using hb
    rw [find?_updateFirst_of_found hq hpf]
  | none =>
    simp only [hq]
    refine ⟨rfl, rfl, ?_⟩
    unfold WebUI.usedOf
    simp only [hq, if_true]
    rw [updateFirst_append_of_neg _ _ (List.find?_eq_none.mp hq)]
    have hrow : updateFirst (fun q : QuizProgressRow => q.user_id == uid)
        (fun q : QuizProgressRow => { q with used_ibit_ids :=
          (WebUI.quizSelect (WebUI.userIbitIds db uid) [] seed).2 })
        ([⟨uid, []⟩] : List QuizProgressRow)
          = ([⟨uid, (WebUI.quizSelect (WebUI.userIbitIds db uid) [] seed).2⟩] :
              List QuizProgressRow) := by
      simp [updateFirst]
    rw [hrow, find?_append_none _ hq]
    simp

theorem quizRun_distinct (uid : Nat) :
    ∀ (seeds : List Nat) (db : DB),
      (WebUI.userIbitIds db uid).Nodup →
      (WebUI.usedOf db uid).Nodup →
      (∀ x ∈ WebUI.usedOf db uid, x ∈ WebUI.userIbitIds db uid) →
      (WebUI.usedOf db uid).length + seeds.length
          ≤ (WebUI.userIbitIds db uid).length →
      ∃ ps : List Nat,
        (WebUI.quizRun db uid seeds).1 = ps.map some ∧
        ps.length = seeds.length ∧
        (WebUI.usedOf db uid ++ ps).Nodup ∧
        ∀ x ∈ ps, x ∈ WebUI.userIbitIds db uid
  | [], db, _, hund, _, _ => ⟨[], rfl, rfl, by simpa using hund, by simp⟩
  | seed :: seeds, db, hids, hund, hsub, hlen => by
    have hlt : (WebUI.usedOf db uid).length < (WebUI.userIbitIds db uid).length := by
      simp only [List.length_cons] at hlen
      omega
    have hpoolne : (WebUI.userIbitIds db uid).filter
        (fun i => !((WebUI.usedOf db uid).contains i)) ≠ [] := by
      intro hfe
      have hsub2 : ∀ x ∈ WebUI.userIbitIds db uid, x ∈ WebUI.usedOf db uid := by
        intro x hx
        have hfx := List.filter_eq_nil_iff.mp hfe x hx
        simpa using hfx
      have := nodup_subset_length_le hids hsub2
      omega
    have hne : ¬ ((WebUI.userIbitIds db uid).isEmpty = true) := by
      simp only [List.isEmpty_iff]
      intro he
      rw [he] at hlt
      simp at hlt
    obtain ⟨hq2, hqibits, hqused⟩ := get_quiz_step db uid seed hne
    obtain ⟨hselmem, hsel2⟩ := quizSelect_no_reset (WebUI.userIbitIds db uid)
        (WebUI.usedOf db uid) seed hpoolne
    have hselid : (WebUI.quizSelect (WebUI.userIbitIds db uid)
        (WebUI.usedOf db uid) seed).1 ∈ WebUI.userIbitIds db uid :=
      (List.mem_filter.mp hselmem).1
    have hselnot : (WebUI.quizSelect (WebUI.userIbitIds db uid)
        (WebUI.usedOf db uid) seed).1 ∉ WebUI.usedOf db uid := by
      have hc := (List.mem_filter.mp hselmem).2
      simp only [Bool.not_eq_true'] at hc
      simpa using hc
    have hids1 : WebUI.userIbitIds (WebUI.get_quiz db uid seed true).1 uid
        = WebUI.userIbitIds db uid := by
      unfold WebUI.userIbitIds
      rw [hqibits]
    have hused1 : WebUI.usedOf (WebUI.get_quiz db uid seed true).1 uid
        = WebUI.usedOf db uid ++ [(WebUI.quizSelect (WebUI.userIbitIds db uid)
            (WebUI.usedOf db uid) seed).1] := by
      rw [hqused, hsel2]
    obtain ⟨ps, hps1, hps2, hps3, hps4⟩ :=
      quizRun_distinct uid seeds (WebUI.get_quiz db uid seed true).1
        (by rw [hids1]; exact hids)
        (by
          rw [hused1]
          simp [List.nodup_append, hund, hselnot])
        (by
          rw [hused1, hids1]
          intro x hx
          rcases List.mem_append.mp hx with hx1 | hx1
          · exact hsub x hx1
          · have hxx : x = (WebUI.quizSelect (WebUI.userIbitIds db uid)
                (WebUI.usedOf db uid) seed).1 := by simpa using hx1
            rw [hxx]
            exact hselid)
        (by
          rw [hused1, hids1]
          simp only [List.length_append, List.length_singleton]
          simp only [List.length_cons] at hlen
          omega)
    refine ⟨(WebUI.quizSelect (WebUI.userIbitIds db uid)
        (WebUI.usedOf db uid) seed).1 :: ps, ?_, ?_, ?_, ?_⟩
    · have hrun : (WebUI.quizRun db uid (seed :: seeds)).1
          = (WebUI.get_quiz db uid seed true).2
              :: (WebUI.quizRun (WebUI.get_quiz db uid seed true).1 uid seeds).1 := rfl
      rw [hrun, hq2, hps1]
      rfl
    · simp [hps2]
    · rw [hused1] at hps3
      simpa [List.append_assoc] using hps3
    · intro x hx
      rcases List.mem_cons.mp hx with hx1 | hx1
      · rw [hx1]
        exact hselid
      · rw [hids1] at hps4
        exact hps4 x hx1

/-- Claim C6 (amended): the web quiz endpoint does guarantee non-repetition
until exhaustion — for a tenant with N stored notes (distinct ids) and an
empty used set (a fresh cycle), N consecutive successful calls return N
distinct note identifiers, whatever the random choices — while the bot-side
core.generate_quiz cited by the claim keeps no rotation state and may
repeat immediately (see its counterexample). -/
theorem c6_amended_web_rotation (db : DB) (uid : Nat) (seeds : List Nat)
    (hids : (WebUI.userIbitIds db uid).Nodup)
    (hused : WebUI.usedOf db uid = [])
    (hlen : seeds.length = (WebUI.userIbitIds db uid).length) :
    ((WebUI.quizRun db uid seeds).1.filterMap id).Nodup ∧
    ((WebUI.quizRun db uid seeds).1.filterMap id).length = seeds.length := by
  obtain ⟨ps, hps1, hps2, hps3, _⟩ := quizRun_distinct uid seeds db hids
    (by simp [hused]) (by simp [hused]) (by simp [hused, hlen])
  rw [hps1, List.filterMap_map]
  have hid : List.filterMap (id ∘ some) ps = ps := by
    simp [Function.comp]
  rw [hid]
  rw [hused] at hps3
  simp only [List.nil_append] at hps3
  exact ⟨hps3, hps2⟩

/-- Witness for C6 at a concrete store: a tenant with notes 1 and 2 and a
fresh cycle gets two distinct ids from two consecutive calls. -/
theorem c6_witness :
    ((WebUI.quizRun ⟨[⟨1, "a", none, 0, 1⟩, ⟨2, "b", none, 0, 1⟩],
        [], [], [], [], [], [], [], 3⟩ 1 [0, 0]).1.filterMap id).Nodup ∧
    ((WebUI.quizRun ⟨[⟨1, "a", none, 0, 1⟩, ⟨2, "b", none, 0, 1⟩],
        [], [], [], [], [], [], [], 3⟩ 1 [0, 0]).1.filterMap id).length = [0, 0].length :=
  c6_amended_web_rotation ⟨[⟨1, "a", none, 0, 1⟩, ⟨2, "b", none, 0, 1⟩],
      [], [], [], [], [], [], [], 3⟩ 1 [0, 0]
    (by decide) (by decide) (by decide)
